import Mathlib

/-!
A shallow embedding of the Pelion-webhook-to-Elasticsearch Lambda
(`src/index.js` and `src/elasticsearch.js`).

Conventions of the embedding:
* JavaScript values that flow through the handler are modelled by `Json`
  (with an explicit `undefined` constructor for JavaScript `undefined`).
* JavaScript numbers occurring in this program (`Date.now()`, `0`, `1`,
  HTTP status codes) are all integers, so `Json.num` carries an `Int`.
* `Date.now()` is modelled as an ambient timestamp `now : Nat` fixed for
  the whole invocation.
* Fallible JavaScript operations (property access on `null`, `Buffer.from`
  on a non-string, `JSON.parse` on garbage) are modelled with `Except`,
  the error value standing for the thrown exception's message.
-/

/-- JavaScript values reachable in this program: JSON values plus
`undefined`. -/
inductive Json where
  | null
  | undefined
  | bool (b : Bool)
  | num (n : Int)
  | str (s : String)
  | arr (elems : List Json)
  | obj (fields : List (String × Json))

/-- Decimal digit character. -/
def digitChar : Nat → Char
  | 0 => '0' | 1 => '1' | 2 => '2' | 3 => '3' | 4 => '4'
  | 5 => '5' | 6 => '6' | 7 => '7' | 8 => '8' | _ => '9'

/-- Decimal digits of a natural number, most significant first; the fuel
(any bound on the digit count) keeps the recursion structural. -/
def natToCharsAux : Nat → Nat → List Char
  | 0, _ => []
  | fuel + 1, n =>
    if n < 10 then [digitChar n]
    else natToCharsAux fuel (n / 10) ++ [digitChar (n % 10)]

/-- Decimal representation of a natural number, as JavaScript prints
integral numbers. -/
def natToChars (n : Nat) : List Char :=
  natToCharsAux (n + 1) n

/-- Decimal representation of an integer, as JavaScript prints integral
numbers. -/
def intToString : Int → String
  | Int.ofNat n => String.mk (natToChars n)
  | Int.negSucc n => String.mk ('-' :: natToChars (n + 1))

/-- Hexadecimal digit character (lowercase, as `JSON.stringify` emits in
`\u00XX` escapes). -/
def hexDigit : Nat → Char
  | 0 => '0' | 1 => '1' | 2 => '2' | 3 => '3' | 4 => '4'
  | 5 => '5' | 6 => '6' | 7 => '7' | 8 => '8' | 9 => '9'
  | 10 => 'a' | 11 => 'b' | 12 => 'c' | 13 => 'd' | 14 => 'e' | _ => 'f'

/-- How `JSON.stringify` escapes one character inside a string literal:
quote, backslash and the named control characters get two-character
escapes, other control characters get a `\u00XX` escape, everything else
is kept verbatim. -/
def escapeChar (c : Char) : List Char :=
  if c = '"' then ['\\', '"']
  else if c = '\\' then ['\\', '\\']
  else if c = '\x08' then ['\\', 'b']
  else if c = '\t' then ['\\', 't']
  else if c = '\n' then ['\\', 'n']
  else if c = '\x0c' then ['\\', 'f']
  else if c = '\r' then ['\\', 'r']
  else if c.toNat < 32 then
    ['\\', 'u', '0', '0', hexDigit (c.toNat / 16), hexDigit (c.toNat % 16)]
  else [c]

/-- `JSON.stringify` of a string value. -/
def quoteString (s : String) : String :=
  String.mk ('"' :: (s.data.flatMap escapeChar ++ ['"']))

/-- Is this value JavaScript `undefined`?  `JSON.stringify` drops object
fields whose value is `undefined`. -/
def Json.isUndefined : Json → Bool
  | .undefined => true
  | _ => false

mutual

/-- `JSON.stringify` (no replacer, no indent) restricted to the values of
this program.  An `undefined` reached inside an array prints as `null`, as in
JavaScript; `undefined`-valued object fields are dropped by
`stringifyFields`. -/
def stringify : Json → String
  | .null => "null"
  | .undefined => "null"
  | .bool true => "true"
  | .bool false => "false"
  | .num n => intToString n
  | .str s => quoteString s
  | .arr xs => "[" ++ stringifyElems xs ++ "]"
  | .obj fs => "\x7b" ++ stringifyFields fs ++ "\x7d"

/-- Comma-separated serialization of array elements. -/
def stringifyElems : List Json → String
  | [] => ""
  | [x] => stringify x
  | x :: y :: xs => stringify x ++ "," ++ stringifyElems (y :: xs)

/-- Comma-separated serialization of object fields, dropping
`undefined`-valued fields as `JSON.stringify` does. -/
def stringifyFields : List (String × Json) → String
  | [] => ""
  | (k, v) :: fs =>
    if v.isUndefined then stringifyFields fs
    else
      let rest := stringifyFields fs
      let entry := quoteString k ++ ":" ++ stringify v
      if rest = "" then entry
      else entry ++ "," ++ rest

end

/-- Top-level `JSON.stringify`: on `undefined` it returns the value
`undefined` (no string), on everything else a string. -/
def stringifyTop : Json → Option String
  | .undefined => none
  | j => some (stringify j)

/-- Value of one base64 alphabet character; `none` for characters outside
the alphabet, which Node's base64 decoder skips. -/
def base64Val (c : Char) : Option Nat :=
  if 'A' ≤ c ∧ c ≤ 'Z' then some (c.toNat - 65)
  else if 'a' ≤ c ∧ c ≤ 'z' then some (c.toNat - 97 + 26)
  else if '0' ≤ c ∧ c ≤ '9' then some (c.toNat - 48 + 52)
  else if c = '+' then some 62
  else if c = '/' then some 63
  else none

/-- Reassemble decoded 6-bit groups into bytes: 4 sextets make 3 bytes, a
trailing group of 3 makes 2, of 2 makes 1, a lone sextet nothing — Node's
handling of (possibly unpadded) base64. -/
def sextetsToBytes : List Nat → List Nat
  | a :: b :: c :: d :: rest =>
    (a * 4 + b / 16) :: ((b % 16) * 16 + c / 4) :: ((c % 4) * 64 + d) :: sextetsToBytes rest
  | [a, b, c] => [a * 4 + b / 16, (b % 16) * 16 + c / 4]
  | [a, b] => [a * 4 + b / 16]
  | _ => []

/-- `Buffer.from(s, 'base64').toString('ascii')`: decode the base64 text
to bytes, then read each byte with its high bit cleared (Node's 'ascii'
decoding). -/
def base64ToAscii (s : String) : String :=
  String.mk ((sextetsToBytes (s.data.filterMap base64Val)).map
    (fun b => Char.ofNat (b % 128)))

/-- First binding of a key in an object's field list. -/
def lookupField : List (String × Json) → String → Option Json
  | [], _ => none
  | (k, v) :: fs, key => if k = key then some v else lookupField fs key

/-- `o.hasOwnProperty(k)`, for the receivers this handler probes.  Own
properties of primitive wrappers (string indices, `length`) are not
modelled; none of the probed keys is one.  `null` receivers are handled
by the caller (property access on `null` throws). -/
def hasOwn (j : Json) (k : String) : Bool :=
  match j with
  | .obj fs => (lookupField fs k).isSome
  | _ => false

/-- JavaScript property access `o[k]`: throws on `null`/`undefined`,
yields `undefined` for a missing key or a primitive receiver. -/
def jsGet : Json → String → Except String Json
  | .null, _ => .error "TypeError: Cannot read properties of null"
  | .undefined, _ => .error "TypeError: Cannot read properties of undefined"
  | .obj fs, k => .ok ((lookupField fs k).getD .undefined)
  | _, _ => .ok .undefined

/-- Total property access for receivers already known non-null (the
handler probes `hasOwnProperty` first, which throws on `null` itself). -/
def getFieldD (j : Json) (k : String) : Json :=
  match j with
  | .obj fs => (lookupField fs k).getD .undefined
  | _ => .undefined

/-- `for (const item of v)`: arrays yield their elements, strings their
characters (as one-character strings); other values are not iterable and
make the loop throw. -/
def iterate : Json → Except String (List Json)
  | .arr xs => .ok xs
  | .str s => .ok (s.data.map (fun c => Json.str (String.mk [c])))
  | _ => .error "TypeError: value is not iterable"

/-- The JSON whitespace characters. -/
def isWs (c : Char) : Bool :=
  c = ' ' || c = '\t' || c = '\n' || c = '\r'

/-- Drop leading JSON whitespace. -/
def skipWs : List Char → List Char
  | [] => []
  | c :: cs => if isWs c then skipWs cs else c :: cs

/-- Value of one hexadecimal digit. -/
def hexVal (c : Char) : Option Nat :=
  if '0' ≤ c ∧ c ≤ '9' then some (c.toNat - 48)
  else if 'a' ≤ c ∧ c ≤ 'f' then some (c.toNat - 87)
  else if 'A' ≤ c ∧ c ≤ 'F' then some (c.toNat - 55)
  else none

/-- Greedily consume decimal digits, accumulating their value. -/
def parseDigitsAux : List Char → Nat → Nat × List Char
  | [], acc => (acc, [])
  | c :: rest, acc =>
    if c.isDigit then parseDigitsAux rest (acc * 10 + (c.toNat - 48))
    else (acc, c :: rest)

/-- Parse at least one decimal digit. -/
def parseNat (cs : List Char) : Option (Nat × List Char) :=
  match cs with
  | c :: _ => if c.isDigit then some (parseDigitsAux cs 0) else none
  | [] => none

mutual

/-- Recursive-descent `JSON.parse`, fuelled for termination.  Two
deliberate restrictions, harmless to every claim: numbers are parsed as
integers (every number this system handles is integral), and duplicate
object keys (where `JSON.parse` keeps the last binding) are kept as
written, `lookupField` returning the first. -/
def parseValue (fuel : Nat) (cs : List Char) : Option (Json × List Char) :=
  match fuel with
  | 0 => none
  | fuel + 1 =>
    match skipWs cs with
    | 'n' :: 'u' :: 'l' :: 'l' :: rest => some (.null, rest)
    | 't' :: 'r' :: 'u' :: 'e' :: rest => some (.bool true, rest)
    | 'f' :: 'a' :: 'l' :: 's' :: 'e' :: rest => some (.bool false, rest)
    | '"' :: rest =>
      (parseStrBody fuel rest).map (fun p => (.str (String.mk p.1), p.2))
    | '[' :: rest =>
      match skipWs rest with
      | ']' :: rest2 => some (.arr [], rest2)
      | _ => (parseElems fuel rest).map (fun p => (.arr p.1, p.2))
    | '\x7b' :: rest =>
      match skipWs rest with
      | '\x7d' :: rest2 => some (.obj [], rest2)
      | _ => (parseMembers fuel rest).map (fun p => (.obj p.1, p.2))
    | '-' :: rest => (parseNat rest).map (fun p => (.num (-(p.1 : Int)), p.2))
    | c :: rest =>
      if c.isDigit then (parseNat (c :: rest)).map (fun p => (.num (p.1 : Int), p.2))
      else none
    | [] => none

/-- Body of a JSON string literal, after its opening quote.  A `\uXXXX`
escape denoting a lone surrogate is out of `Char`'s range and replaced by
`Char.ofNat`'s default; no claim involves one. -/
def parseStrBody (fuel : Nat) (cs : List Char) : Option (List Char × List Char) :=
  match fuel with
  | 0 => none
  | fuel + 1 =>
    match cs with
    | [] => none
    | '"' :: rest => some ([], rest)
    | '\\' :: e :: rest =>
      let dec : Option (Char × List Char) :=
        if e = '"' then some ('"', rest)
        else if e = '\\' then some ('\\', rest)
        else if e = '/' then some ('/', rest)
        else if e = 'b' then some ('\x08', rest)
        else if e = 'f' then some ('\x0c', rest)
        else if e = 'n' then some ('\n', rest)
        else if e = 'r' then some ('\r', rest)
        else if e = 't' then some ('\t', rest)
        else if e = 'u' then
          match rest with
          | h1 :: h2 :: h3 :: h4 :: rest2 =>
            match hexVal h1, hexVal h2, hexVal h3, hexVal h4 with
            | some a, some b, some c, some d =>
              some (Char.ofNat (((a * 16 + b) * 16 + c) * 16 + d), rest2)
            | _, _, _, _ => none
          | _ => none
        else none
      match dec with
      | some (c, rest2) => (parseStrBody fuel rest2).map (fun p => (c :: p.1, p.2))
      | none => none
    | c :: rest =>
      if c.toNat < 32 then none
      else (parseStrBody fuel rest).map (fun p => (c :: p.1, p.2))

/-- Elements of a non-empty JSON array, after its opening bracket. -/
def parseElems (fuel : Nat) (cs : List Char) : Option (List Json × List Char) :=
  match fuel with
  | 0 => none
  | fuel + 1 =>
    match parseValue fuel cs with
    | none => none
    | some (v, rest) =>
      match skipWs rest with
      | ',' :: rest2 => (parseElems fuel rest2).map (fun p => (v :: p.1, p.2))
      | ']' :: rest2 => some ([v], rest2)
      | _ => none

/-- Members of a non-empty JSON object, after its opening brace. -/
def parseMembers (fuel : Nat) (cs : List Char) :
    Option (List (String × Json) × List Char) :=
  match fuel with
  | 0 => none
  | fuel + 1 =>
    match skipWs cs with
    | '"' :: rest =>
      match parseStrBody fuel rest with
      | none => none
      | some (key, rest2) =>
        match skipWs rest2 with
        | ':' :: rest3 =>
          match parseValue fuel rest3 with
          | none => none
          | some (v, rest4) =>
            match skipWs rest4 with
            | ',' :: rest5 =>
              (parseMembers fuel rest5).map
                (fun p => ((String.mk key, v) :: p.1, p.2))
            | '\x7d' :: rest5 => some ([(String.mk key, v)], rest5)
            | _ => none
        | _ => none
    | _ => none

end

/-- `JSON.parse`: parse one value, allow trailing whitespace only.  The
error value models the thrown `SyntaxError`. -/
def jsonParse (s : String) : Except String Json :=
  match parseValue (2 * s.length + 2) s.data with
  | some (v, rest) =>
    match skipWs rest with
    | [] => .ok v
    | _ => .error "SyntaxError: Unexpected token in JSON"
  | none => .error "SyntaxError: Unexpected token in JSON"

/-- The bulk action line for the `notifications` index
(`elasticsearch.js` line 128), without its trailing newline. -/
def notifAction : String :=
  "\x7b\"index\":\x7b\"_index\":\"notifications\",\"_type\":\"_doc\"\x7d\x7d"

/-- The bulk action line for the `devices` index (line 168). -/
def devicesAction : String :=
  "\x7b\"index\":\x7b\"_index\":\"devices\",\"_type\":\"_doc\"\x7d\x7d"

/-- The bulk action line for the `registrations` index
(lines 179 and 226). -/
def registrationsAction : String :=
  "\x7b\"index\":\x7b\"_index\":\"registrations\",\"_type\":\"_doc\"\x7d\x7d"

/-- `Buffer.from(v, 'base64')`, applied to an accessed property value:
throws a `TypeError` unless the value is a string; then decoded with
`.toString('ascii')` (`elasticsearch.js` line 115). -/
def bufferFromBase64Ascii : Json → Except String String
  | .str s => .ok (base64ToAscii s)
  | _ => .error "TypeError: first argument must be of type string or Buffer"

/-- The `bulk +=` loop of `sendNotifications` (lines 107-130).  The JS
loop accumulates left to right; a decode throw aborts the whole function
before any request is issued, so building head-first is observationally
the same.  `JSON.stringify(record).trim()` equals `stringify record`
because a stringified object has no surrounding whitespace. -/
def notificationsBulkCore (now : Nat) : List Json → Except String String
  | [] => .ok ""
  | item :: rest => do
    let payload ← jsGet item "payload"
    let value ← bufferFromBase64Ascii payload
    let ep ← jsGet item "ep"
    let pth ← jsGet item "path"
    let record := Json.obj
      [("time", .num (now : Int)), ("endpoint", ep), ("path", pth),
       ("value", .str value)]
    let tail ← notificationsBulkCore now rest
    .ok (notifAction ++ "\n" ++ stringify record ++ "\n" ++ tail)

/-- The value stored in the `resources` field:
`JSON.stringify(item.resources)` — a string normally, but the JavaScript
value `undefined` when `resources` is absent (so the field is then
dropped from the serialized document). -/
def resourcesField (v : Json) : Json :=
  match stringifyTop v with
  | some s => .str s
  | none => .undefined

/-- The `bulk +=` loop of `sendRegistrations` (lines 153-185): per item a
`devices` action/document pair then a `registrations` action/document
pair. -/
def registrationsBulkCore (now : Nat) : List Json → Except String String
  | [] => .ok ""
  | item :: rest => do
    let ep ← jsGet item "ep"
    let oep ← jsGet item "original-ep"
    let ept ← jsGet item "ept"
    let res ← jsGet item "resources"
    let recordDeviceInfo := Json.obj
      [("time", .num (now : Int)), ("endpoint", ep), ("original-ep", oep),
       ("ept", ept), ("resources", resourcesField res)]
    let recordDeviceRegistration := Json.obj
      [("time", .num (now : Int)), ("endpoint", ep), ("value", .num 1)]
    let tail ← registrationsBulkCore now rest
    .ok (devicesAction ++ "\n" ++ stringify recordDeviceInfo ++ "\n" ++
         registrationsAction ++ "\n" ++ stringify recordDeviceRegistration ++
         "\n" ++ tail)

/-- The `bulk +=` loop of `sendExpirations` (lines 211-230): the raw item
itself becomes the `endpoint` field.  No property access happens, so no
item can make this loop throw. -/
def expirationsBulkCore (now : Nat) : List Json → String
  | [] => ""
  | item :: rest =>
    let record := Json.obj
      [("time", .num (now : Int)), ("endpoint", item), ("value", .num 0)]
    registrationsAction ++ "\n" ++ stringify record ++ "\n" ++
      expirationsBulkCore now rest

/-- What the transport does with the one outbound request: fire the
response callback with a raw response, or fire the error callback. -/
structure RawResponse where
  statusCode : Int
  statusMessage : String
  headers : List (String × String)
  chunks : List String

/-- The two callbacks of `httpClient.handleRequest`; exactly one fires. -/
inductive EngineSettle where
  | respond (r : RawResponse)
  | transportError (msg : String)

/-- The value `sendRequest`'s promise resolves with (lines 80-88):
status line and headers always, `body` only when the accumulated body
text is non-empty. -/
structure ResolvedData where
  statusCode : Int
  statusMessage : String
  headers : List (String × String)
  body : Option Json

/-- How `sendRequest`'s promise settles.  `pending` covers the one path
on which it never settles: `JSON.parse` throwing inside the `end` event
handler. -/
inductive PromiseOutcome where
  | resolved (d : ResolvedData)
  | rejected (msg : String)
  | pending

/-- `body += chunk` accumulation over the `data` events (lines 71-76). -/
def accumulate (chunks : List String) : String :=
  chunks.foldl (fun acc c => acc ++ c) ""

/-- The promise of `sendRequest` (lines 64-94): a transport error rejects;
a response resolves with `{statusCode, statusMessage, headers}` plus the
JSON-decoded body when the accumulated body is non-empty — with no branch
on the status code. -/
def promiseSettle : EngineSettle → PromiseOutcome
  | .transportError m => .rejected m
  | .respond r =>
    let body := accumulate r.chunks
    if body = "" then
      .resolved ⟨r.statusCode, r.statusMessage, r.headers, none⟩
    else
      match jsonParse body with
      | .ok j => .resolved ⟨r.statusCode, r.statusMessage, r.headers, some j⟩
      | .error _ => .pending

/-- What the completion callback `done` was invoked with: an error
(carrying its message) or a result value. -/
structure DoneCall where
  err : Option String
  res : Option Json

/-- The observable outcome of one invocation: the bulk payload POSTed to
`/_bulk` (if the request was issued), the arguments `done` received (if it
was invoked), and the message of an uncaught exception (if one was
thrown). -/
structure HandlerResult where
  outbound : Option String
  callback : Option DoneCall
  thrown : Option String

/-- The continuation `.then(resolve => done(null, 'success'), reject =>
done(reject))` that all three send functions attach verbatim
(lines 138-145, 193-200, 238-245): the resolved value is discarded. -/
def thenDone : PromiseOutcome → Option DoneCall
  | .resolved _ => some ⟨none, some (.str "success")⟩
  | .rejected m => some ⟨some m, none⟩
  | .pending => none

/-- A send function's tail: POST the bulk payload to `/_bulk` and settle
the completion callback from the promise. -/
def sendTail (engine : EngineSettle) (bulk : String) : HandlerResult :=
  ⟨some bulk, thenDone (promiseSettle engine), none⟩

/-- `sendNotifications(notifications, done)` (lines 105-146). -/
def sendNotificationsM (now : Nat) (engine : EngineSettle) (items : Json) :
    HandlerResult :=
  match (do notificationsBulkCore now (← iterate items) :
      Except String String) with
  | .error m => ⟨none, none, some m⟩
  | .ok bulk => sendTail engine bulk

/-- `sendRegistrations(registrations, done)` (lines 151-201). -/
def sendRegistrationsM (now : Nat) (engine : EngineSettle) (items : Json) :
    HandlerResult :=
  match (do registrationsBulkCore now (← iterate items) :
      Except String String) with
  | .error m => ⟨none, none, some m⟩
  | .ok bulk => sendTail engine bulk

/-- `sendExpirations(expirations, done)` (lines 206-246). -/
def sendExpirationsM (now : Nat) (engine : EngineSettle) (items : Json) :
    HandlerResult :=
  match iterate items with
  | .error m => ⟨none, none, some m⟩
  | .ok xs => sendTail engine (expirationsBulkCore now xs)

/-- The classification chain of `index.js` lines 52-84, as a pure
function of the parsed body. -/
inductive Branch where
  | notificationsB
  | registrationsB
  | regUpdatesB
  | expiredB
  | unknownB

/-- Which branch the `if`/`else if` chain of the handler selects, by key
presence, for a non-null parsed body. -/
def classify (body : Json) : Branch :=
  if hasOwn body "notifications" then .notificationsB
  else if hasOwn body "registrations" || hasOwn body "reg-updates" then
    if hasOwn body "registrations" then .registrationsB else .regUpdatesB
  else if hasOwn body "registrations-expired" then .expiredB
  else .unknownB

/-- The handler from the parsed body on (`index.js` lines 52-84).
`body.hasOwnProperty` itself throws when the parsed body is `null`. -/
def handlerWithBody (now : Nat) (engine : EngineSettle) (body : Json) :
    HandlerResult :=
  match body with
  | .null => ⟨none, none, some "TypeError: Cannot read properties of null"⟩
  | .undefined => ⟨none, none, some "TypeError: Cannot read properties of undefined"⟩
  | _ =>
    if hasOwn body "notifications" then
      sendNotificationsM now engine (getFieldD body "notifications")
    else if hasOwn body "registrations" || hasOwn body "reg-updates" then
      if hasOwn body "registrations" then
        sendRegistrationsM now engine (getFieldD body "registrations")
      else
        sendRegistrationsM now engine (getFieldD body "reg-updates")
    else if hasOwn body "registrations-expired" then
      sendExpirationsM now engine (getFieldD body "registrations-expired")
    else
      ⟨none, some ⟨none, some (.str "success")⟩, none⟩

/-- The inbound Lambda event: its HTTP method and, when the `body`
property is present, the raw body text. -/
structure Event where
  httpMethod : String
  body : Option String

/-- `exports.handler` (`index.js` lines 26-90).  A PUT without a `body`
property falls through both inner branches and returns with the callback
never invoked; a non-PUT method short-circuits to a failure naming the
method. -/
def handler (now : Nat) (engine : EngineSettle) (ev : Event) : HandlerResult :=
  if ev.httpMethod = "PUT" then
    match ev.body with
    | none => ⟨none, none, none⟩
    | some raw =>
      match jsonParse raw with
      | .error m => ⟨none, none, some m⟩
      | .ok body => handlerWithBody now engine body
  else
    ⟨none,
     some ⟨some ("Unsupported method \"" ++ ev.httpMethod ++ "\""), none⟩,
     none⟩

/-- The HTTP response the entrypoint shapes (`index.js` lines 32-38). -/
structure LambdaResponse where
  statusCode : String
  body : Option String
  contentType : String

/-- The `done` callback's response shaping: an error maps to status 400
with the error's message as body, otherwise status 200 with the
JSON-serialized result. -/
def doneResponse (c : DoneCall) : LambdaResponse :=
  { statusCode := if c.err.isSome then "400" else "200",
    body :=
      match c.err with
      | some m => some m
      | none =>
        match c.res with
        | some r => stringifyTop r
        | none => none,
    contentType := "application/json" }

/-! ### Line structure of bulk payloads -/

/-- A string free of raw newlines — the property that makes a bulk line a
single line. -/
def noNl (s : String) : Bool :=
  s.data.all (fun c => c != '\n')

/-- Split a character list at newlines (keeping a trailing empty
fragment, as `splitOn` would). -/
def splitNl : List Char → List (List Char)
  | [] => [[]]
  | c :: cs =>
    if c = '\n' then [] :: splitNl cs
    else (splitNl cs).modifyHead (fun l => c :: l)

/-- The newline-terminated lines of a string: fragments between newlines,
without the trailing empty fragment. -/
def termLines (s : String) : List String :=
  ((splitNl s.data).dropLast).map (fun l => String.mk l)

/-- Scalar (non-composite) values: everything a flat bulk document stores
in its fields. -/
def Json.isScalar : Json → Bool
  | .arr _ => false
  | .obj _ => false
  | _ => true

/-- Is this value a string? -/
def Json.isStr : Json → Bool
  | .str _ => true
  | _ => false

/-- Is this value an object? -/
def Json.isObj : Json → Bool
  | .obj _ => true
  | _ => false

/-- The underlying string of a string value (defaulting elsewhere). -/
def Json.asStr : Json → String
  | .str s => s
  | _ => ""

/-- The string stored under a key. -/
def strFieldD (j : Json) (k : String) : String :=
  (getFieldD j k).asStr

/-- A well-formed notification item: an object with string `ep`, `path`
and `payload` fields (spec §6). -/
def isValidNotification (j : Json) : Bool :=
  (getFieldD j "ep").isStr && (getFieldD j "path").isStr &&
    (getFieldD j "payload").isStr

/-- A well-formed registration item: an object with string `ep`,
`original-ep` and `ept` fields and a present `resources` field
(spec §6). -/
def isValidRegistration (j : Json) : Bool :=
  (getFieldD j "ep").isStr && (getFieldD j "original-ep").isStr &&
    (getFieldD j "ept").isStr && !(getFieldD j "resources").isUndefined

/-- A notification item the builder tolerates: an object whose `payload`
is a string, with `ep` and `path` each absent or a string. -/
def notifItemLenient (j : Json) : Bool :=
  j.isObj && (getFieldD j "payload").isStr &&
    ((getFieldD j "ep").isUndefined || (getFieldD j "ep").isStr) &&
    ((getFieldD j "path").isUndefined || (getFieldD j "path").isStr)

/-- A registration item the builder tolerates: any object whose `ep`,
`original-ep` and `ept` are each absent or a string (`resources` may be
anything, including absent). -/
def regItemLenient (j : Json) : Bool :=
  j.isObj &&
    ((getFieldD j "ep").isUndefined || (getFieldD j "ep").isStr) &&
    ((getFieldD j "original-ep").isUndefined || (getFieldD j "original-ep").isStr) &&
    ((getFieldD j "ept").isUndefined || (getFieldD j "ept").isStr)

theorem splitNl_ne_nil (cs : List Char) : splitNl cs ≠ [] := by
  induction cs with
  | nil => simp [splitNl]
  | cons c cs ih =>
    simp only [splitNl]
    split
    · simp
    · cases h : splitNl cs with
      | nil => exact absurd h ih
      | cons l ls => simp [List.modifyHead]

theorem splitNl_line (l rest : List Char) (h : l.all (fun c => c != '\n') = true) :
    splitNl (l ++ '\n' :: rest) = l :: splitNl rest := by
  induction l with
  | nil => simp [splitNl]
  | cons c cs ih =>
    simp only [List.all_cons, Bool.and_eq_true, bne_iff_ne] at h
    simp only [List.cons_append, splitNl, if_neg h.1, List.append_eq, ih h.2,
      List.modifyHead]

theorem termLines_empty : termLines "" = [] := rfl

theorem termLines_line (a s : String) (h : noNl a = true) :
    termLines (a ++ "\n" ++ s) = a :: termLines s := by
  have hdata : (a ++ "\n" ++ s).data = a.data ++ '\n' :: s.data := by
    simp [String.data_append]
  unfold termLines
  rw [hdata, splitNl_line a.data s.data h,
      List.dropLast_cons_of_ne_nil (splitNl_ne_nil s.data), List.map_cons]

/-! ### The serializer emits no raw newline for flat documents -/

theorem digitChar_noNl (n : Nat) : (digitChar n != '\n') = true := by
  unfold digitChar
  split <;> decide

theorem natToCharsAux_noNl (fuel n : Nat) :
    (natToCharsAux fuel n).all (fun c => c != '\n') = true := by
  induction fuel generalizing n with
  | zero => rfl
  | succ fuel ih =>
    unfold natToCharsAux
    split
    · simp [digitChar_noNl]
    · rw [List.all_append]
      exact Bool.and_eq_true_iff.mpr ⟨ih (n / 10), by simp [digitChar_noNl]⟩

theorem natToChars_noNl (n : Nat) :
    (natToChars n).all (fun c => c != '\n') = true :=
  natToCharsAux_noNl (n + 1) n

theorem intToString_noNl (n : Int) : noNl (intToString n) = true := by
  cases n with
  | ofNat m => simpa [intToString, noNl] using natToChars_noNl m
  | negSucc m =>
    simp only [intToString, noNl, List.all_cons, Bool.and_eq_true]
    exact ⟨by decide, natToChars_noNl (m + 1)⟩

theorem hexDigit_noNl (n : Nat) : (hexDigit n != '\n') = true := by
  unfold hexDigit
  split <;> decide

theorem escapeChar_noNl (c : Char) : (escapeChar c).all (fun c => c != '\n') = true := by
  unfold escapeChar
  split
  · decide
  · split
    · decide
    · split
      · decide
      · split
        · decide
        · split
          · decide
          · split
            · decide
            · split
              · decide
              · split
                · simp [hexDigit_noNl]
                · simp only [List.all_cons, List.all_nil, Bool.and_true, bne_iff_ne]
                  assumption

theorem quoteString_noNl (s : String) : noNl (quoteString s) = true := by
  unfold quoteString noNl
  simp only [List.all_cons, Bool.and_eq_true, List.all_append]
  refine ⟨by decide, ?_, by decide⟩
  induction s.data with
  | nil => decide
  | cons c cs ih =>
    rw [List.flatMap_cons, List.all_append]
    exact Bool.and_eq_true_iff.mpr ⟨escapeChar_noNl c, ih⟩

theorem stringify_scalar_noNl (j : Json) (h : j.isScalar = true) :
    noNl (stringify j) = true := by
  cases j with
  | null => decide
  | undefined => decide
  | bool b => cases b <;> decide
  | num n => simpa [stringify] using intToString_noNl n
  | str s => simpa [stringify] using quoteString_noNl s
  | arr xs => simp [Json.isScalar] at h
  | obj fs => simp [Json.isScalar] at h

theorem noNl_append (a b : String) : noNl (a ++ b) = (noNl a && noNl b) := by
  simp [noNl, String.data_append, List.all_append]

theorem stringifyFields_flat_noNl (fs : List (String × Json))
    (h : ∀ p ∈ fs, (p.2).isScalar = true) :
    noNl (stringifyFields fs) = true := by
  induction fs with
  | nil => decide
  | cons p fs ih =>
    obtain ⟨k, v⟩ := p
    have hv : v.isScalar = true := h (k, v) (by simp)
    have hrest : noNl (stringifyFields fs) = true :=
      ih (fun q hq => h q (List.mem_cons_of_mem _ hq))
    simp only [stringifyFields]
    split
    · exact hrest
    · have hentry : noNl (quoteString k ++ ":" ++ stringify v) = true := by
        rw [noNl_append, noNl_append]
        simp [quoteString_noNl k, stringify_scalar_noNl v hv]
        decide
      split
      · exact hentry
      · rw [noNl_append, noNl_append]
        simp [hentry, hrest]
        have := hentry
        rw [noNl_append, noNl_append] at this
        simp_all
        decide

theorem stringify_flatObj_noNl (fs : List (String × Json))
    (h : ∀ p ∈ fs, (p.2).isScalar = true) :
    noNl (stringify (Json.obj fs)) = true := by
  show noNl ("\x7b" ++ stringifyFields fs ++ "\x7d") = true
  rw [noNl_append, noNl_append]
  simp [stringifyFields_flat_noNl fs h]
  decide

/-! ### Field-shape predicates and helper lemmas -/

theorem Json.isStr_asStr {v : Json} (h : v.isStr = true) : v = .str v.asStr := by
  cases v <;> simp_all [Json.isStr, Json.asStr]

theorem Json.isStr_isScalar {v : Json} (h : v.isStr = true) : v.isScalar = true := by
  cases v <;> simp_all [Json.isStr, Json.isScalar]

theorem jsGet_eq_getFieldD {j : Json} (h : j.isObj = true) (k : String) :
    jsGet j k = .ok (getFieldD j k) := by
  cases j <;> simp_all [Json.isObj, jsGet, getFieldD]

theorem getFieldD_isObj {j : Json} {k : String}
    (h : (getFieldD j k).isUndefined = false) : j.isObj = true := by
  cases j <;> simp_all [getFieldD, Json.isUndefined, Json.isObj]

theorem Json.isStr_not_isUndef {v : Json} (h : v.isStr = true) :
    v.isUndefined = false := by
  cases v <;> simp_all [Json.isStr, Json.isUndefined]

theorem termLines_line' (a s : String) (h : noNl a = true) :
    termLines (a ++ ("\n" ++ s)) = a :: termLines s := by
  rw [← String.append_assoc]
  exact termLines_line a s h

theorem notifAction_noNl : noNl notifAction = true := by decide

theorem devicesAction_noNl : noNl devicesAction = true := by decide

theorem registrationsAction_noNl : noNl registrationsAction = true := by decide

theorem length_flatMap_pair {α β : Type} (l : List α) (f g : α → β) :
    (l.flatMap (fun x => [f x, g x])).length = 2 * l.length := by
  induction l with
  | nil => rfl
  | cons x xs ih =>
    simp only [List.flatMap_cons, List.length_append, ih, List.length_cons,
      List.length_nil]
    omega

theorem length_flatMap_quad {α β : Type} (l : List α) (f g f2 g2 : α → β) :
    (l.flatMap (fun x => [f x, g x, f2 x, g2 x])).length = 4 * l.length := by
  induction l with
  | nil => rfl
  | cons x xs ih =>
    simp only [List.flatMap_cons, List.length_append, ih, List.length_cons,
      List.length_nil]
    omega

/-- C1: for every valid notifications array of length N, `sendNotifications`
builds a bulk payload of exactly 2N newline-terminated lines, alternating
the `notifications` action line with a document line whose `value` is the
base64/ascii-decoded `payload`, whose `endpoint` is the item's `ep` and
whose `path` is the item's `path`, in input order. -/
theorem notifications_bulk_correct (now : Nat) (items : List Json)
    (h : ∀ j ∈ items, isValidNotification j = true) :
    ∃ bulk, notificationsBulkCore now items = .ok bulk ∧
      termLines bulk = items.flatMap (fun j =>
        [notifAction,
         stringify (Json.obj
           [("time", .num (now : Int)),
            ("endpoint", .str (strFieldD j "ep")),
            ("path", .str (strFieldD j "path")),
            ("value", .str (base64ToAscii (strFieldD j "payload")))])]) ∧
      (termLines bulk).length = 2 * items.length := by
  have main : ∀ items : List Json, (∀ j ∈ items, isValidNotification j = true) →
      ∃ bulk, notificationsBulkCore now items = .ok bulk ∧
        termLines bulk = items.flatMap (fun j =>
          [notifAction,
           stringify (Json.obj
             [("time", .num (now : Int)),
              ("endpoint", .str (strFieldD j "ep")),
              ("path", .str (strFieldD j "path")),
              ("value", .str (base64ToAscii (strFieldD j "payload")))])]) := by
    intro items h
    induction items with
    | nil => exact ⟨"", rfl, rfl⟩
    | cons j rest ih =>
      obtain ⟨tail, htail, hlines⟩ := ih (fun x hx => h x (List.mem_cons_of_mem _ hx))
      have hj := h j (List.mem_cons_self _ _)
      simp only [isValidNotification, Bool.and_eq_true] at hj
      obtain ⟨⟨hep, hpath⟩, hpl⟩ := hj
      have hobj : j.isObj = true :=
        getFieldD_isObj (Json.isStr_not_isUndef hpl)
      obtain ⟨e, hepv⟩ : ∃ s, getFieldD j "ep" = .str s := ⟨_, Json.isStr_asStr hep⟩
      obtain ⟨p, hpathv⟩ : ∃ s, getFieldD j "path" = .str s := ⟨_, Json.isStr_asStr hpath⟩
      obtain ⟨pl, hplv⟩ : ∃ s, getFieldD j "payload" = .str s := ⟨_, Json.isStr_asStr hpl⟩
      refine ⟨notifAction ++ "\n" ++
        stringify (Json.obj
          [("time", .num (now : Int)),
           ("endpoint", .str (strFieldD j "ep")),
           ("path", .str (strFieldD j "path")),
           ("value", .str (base64ToAscii (strFieldD j "payload")))]) ++ "\n" ++
        tail, ?_, ?_⟩
      · simp only [notificationsBulkCore, strFieldD, jsGet_eq_getFieldD hobj,
          hepv, hpathv, hplv, Json.asStr, htail]
        rfl
      · have hdoc : noNl (stringify (Json.obj
            [("time", .num (now : Int)),
             ("endpoint", .str (strFieldD j "ep")),
             ("path", .str (strFieldD j "path")),
             ("value", .str (base64ToAscii (strFieldD j "payload")))])) = true := by
          refine stringify_flatObj_noNl _ ?_
          intro q hq
          simp only [List.mem_cons, List.not_mem_nil, or_false] at hq
          rcases hq with h1 | h1 | h1 | h1 <;> subst h1 <;> rfl
        simp only [String.append_assoc]
        rw [termLines_line' _ _ notifAction_noNl, termLines_line' _ _ hdoc,
          hlines, List.flatMap_cons]
        rfl
  obtain ⟨bulk, h1, h2⟩ := main items h
  refine ⟨bulk, h1, h2, ?_⟩
  rw [h2, length_flatMap_pair]

theorem stringifyTop_of_not_undefined {v : Json} (h : v.isUndefined = false) :
    stringifyTop v = some (stringify v) := by
  cases v <;> simp_all [Json.isUndefined, stringifyTop]

theorem exceptOkBind {ε α β : Type} (a : α) (f : α → Except ε β) :
    (Except.ok a : Except ε α) >>= f = f a := rfl

theorem resourcesField_of_not_undefined {v : Json} (h : v.isUndefined = false) :
    resourcesField v = .str (stringify v) := by
  cases v <;> simp_all [resourcesField, stringifyTop, Json.isUndefined]

/-- Witness for C1 at a concrete one-element batch. -/
theorem notifications_bulk_correct_witness :
    (∀ j ∈ [Json.obj
        [("ep", Json.str "node1"), ("path", Json.str "/3/0/1"),
         ("payload", Json.str "SGVsbG8=")]], isValidNotification j = true) ∧
    (∃ bulk, notificationsBulkCore 5 [Json.obj
        [("ep", Json.str "node1"), ("path", Json.str "/3/0/1"),
         ("payload", Json.str "SGVsbG8=")]] = .ok bulk ∧
      termLines bulk = [Json.obj
        [("ep", Json.str "node1"), ("path", Json.str "/3/0/1"),
         ("payload", Json.str "SGVsbG8=")]].flatMap (fun j =>
        [notifAction,
         stringify (Json.obj
           [("time", .num ((5 : Nat) : Int)),
            ("endpoint", .str (strFieldD j "ep")),
            ("path", .str (strFieldD j "path")),
            ("value", .str (base64ToAscii (strFieldD j "payload")))])]) ∧
      (termLines bulk).length = 2 * [Json.obj
        [("ep", Json.str "node1"), ("path", Json.str "/3/0/1"),
         ("payload", Json.str "SGVsbG8=")]].length) :=
  ⟨by decide, notifications_bulk_correct 5 _ (by decide)⟩

/-- C2: for every valid registrations array of length N,
`sendRegistrations` builds a bulk payload of exactly 4N lines: per item a
`devices` action line, a document carrying `time`, `endpoint`,
`original-ep`, `ept` and the JSON-serialized *string* of `resources`,
then a `registrations` action line and a document with `value` 1. -/
theorem registrations_bulk_correct (now : Nat) (items : List Json)
    (h : ∀ j ∈ items, isValidRegistration j = true) :
    ∃ bulk, registrationsBulkCore now items = .ok bulk ∧
      termLines bulk = items.flatMap (fun j =>
        [devicesAction,
         stringify (Json.obj
           [("time", .num (now : Int)),
            ("endpoint", .str (strFieldD j "ep")),
            ("original-ep", .str (strFieldD j "original-ep")),
            ("ept", .str (strFieldD j "ept")),
            ("resources", .str (stringify (getFieldD j "resources")))]),
         registrationsAction,
         stringify (Json.obj
           [("time", .num (now : Int)),
            ("endpoint", .str (strFieldD j "ep")),
            ("value", .num 1)])]) ∧
      (termLines bulk).length = 4 * items.length := by
  have main : ∀ items : List Json, (∀ j ∈ items, isValidRegistration j = true) →
      ∃ bulk, registrationsBulkCore now items = .ok bulk ∧
        termLines bulk = items.flatMap (fun j =>
          [devicesAction,
           stringify (Json.obj
             [("time", .num (now : Int)),
              ("endpoint", .str (strFieldD j "ep")),
              ("original-ep", .str (strFieldD j "original-ep")),
              ("ept", .str (strFieldD j "ept")),
              ("resources", .str (stringify (getFieldD j "resources")))]),
           registrationsAction,
           stringify (Json.obj
             [("time", .num (now : Int)),
              ("endpoint", .str (strFieldD j "ep")),
              ("value", .num 1)])]) := by
    intro items h
    induction items with
    | nil => exact ⟨"", rfl, rfl⟩
    | cons j rest ih =>
      obtain ⟨tail, htail, hlines⟩ := ih (fun x hx => h x (List.mem_cons_of_mem _ hx))
      have hj := h j (List.mem_cons_self _ _)
      simp only [isValidRegistration, Bool.and_eq_true, Bool.not_eq_true'] at hj
      obtain ⟨⟨⟨hep, hoep⟩, hept⟩, hres⟩ := hj
      have hobj : j.isObj = true :=
        getFieldD_isObj (Json.isStr_not_isUndef hep)
      obtain ⟨e, hepv⟩ : ∃ s, getFieldD j "ep" = .str s := ⟨_, Json.isStr_asStr hep⟩
      obtain ⟨o, hoepv⟩ : ∃ s, getFieldD j "original-ep" = .str s :=
        ⟨_, Json.isStr_asStr hoep⟩
      obtain ⟨t, heptv⟩ : ∃ s, getFieldD j "ept" = .str s := ⟨_, Json.isStr_asStr hept⟩
      have hrf := resourcesField_of_not_undefined hres
      refine ⟨devicesAction ++ "\n" ++
        stringify (Json.obj
          [("time", .num (now : Int)),
           ("endpoint", .str (strFieldD j "ep")),
           ("original-ep", .str (strFieldD j "original-ep")),
           ("ept", .str (strFieldD j "ept")),
           ("resources", .str (stringify (getFieldD j "resources")))]) ++ "\n" ++
        registrationsAction ++ "\n" ++
        stringify (Json.obj
          [("time", .num (now : Int)),
           ("endpoint", .str (strFieldD j "ep")),
           ("value", .num 1)]) ++ "\n" ++ tail, ?_, ?_⟩
      · simp only [registrationsBulkCore, strFieldD, jsGet_eq_getFieldD hobj,
          exceptOkBind, hepv, hoepv, heptv, Json.asStr, hrf, htail]
      · have hdoc1 : noNl (stringify (Json.obj
            [("time", .num (now : Int)),
             ("endpoint", .str (strFieldD j "ep")),
             ("original-ep", .str (strFieldD j "original-ep")),
             ("ept", .str (strFieldD j "ept")),
             ("resources", .str (stringify (getFieldD j "resources")))])) = true := by
          refine stringify_flatObj_noNl _ ?_
          intro q hq
          simp only [List.mem_cons, List.not_mem_nil, or_false] at hq
          rcases hq with h1 | h1 | h1 | h1 | h1 <;> subst h1 <;> rfl
        have hdoc2 : noNl (stringify (Json.obj
            [("time", .num (now : Int)),
             ("endpoint", .str (strFieldD j "ep")),
             ("value", .num 1)])) = true := by
          refine stringify_flatObj_noNl _ ?_
          intro q hq
          simp only [List.mem_cons, List.not_mem_nil, or_false] at hq
          rcases hq with h1 | h1 | h1 <;> subst h1 <;> rfl
        simp only [String.append_assoc]
        rw [termLines_line' _ _ devicesAction_noNl, termLines_line' _ _ hdoc1,
          termLines_line' _ _ registrationsAction_noNl,
          termLines_line' _ _ hdoc2, hlines, List.flatMap_cons]
        rfl
  obtain ⟨bulk, h1, h2⟩ := main items h
  refine ⟨bulk, h1, h2, ?_⟩
  rw [h2, length_flatMap_quad]

/-- Witness for C2 at a concrete one-element batch. -/
theorem registrations_bulk_correct_witness :
    (∀ j ∈ [Json.obj
        [("ep", Json.str "n"), ("original-ep", Json.str "o"),
         ("ept", Json.str "t"), ("resources", Json.arr [])]],
      isValidRegistration j = true) ∧
    (∃ bulk, registrationsBulkCore 5 [Json.obj
        [("ep", Json.str "n"), ("original-ep", Json.str "o"),
         ("ept", Json.str "t"), ("resources", Json.arr [])]] = .ok bulk ∧
      termLines bulk = [Json.obj
        [("ep", Json.str "n"), ("original-ep", Json.str "o"),
         ("ept", Json.str "t"), ("resources", Json.arr [])]].flatMap (fun j =>
        [devicesAction,
         stringify (Json.obj
           [("time", .num ((5 : Nat) : Int)),
            ("endpoint", .str (strFieldD j "ep")),
            ("original-ep", .str (strFieldD j "original-ep")),
            ("ept", .str (strFieldD j "ept")),
            ("resources", .str (stringify (getFieldD j "resources")))]),
         registrationsAction,
         stringify (Json.obj
           [("time", .num ((5 : Nat) : Int)),
            ("endpoint", .str (strFieldD j "ep")),
            ("value", .num 1)])]) ∧
      (termLines bulk).length = 4 * [Json.obj
        [("ep", Json.str "n"), ("original-ep", Json.str "o"),
         ("ept", Json.str "t"), ("resources", Json.arr [])]].length) :=
  ⟨by decide, registrations_bulk_correct 5 _ (by decide)⟩

/-- C3: for every `registrations-expired` array of plain strings of
length N, `sendExpirations` builds a bulk payload of exactly 2N lines,
each action targeting the `registrations` index and each document having
`value` 0 and `endpoint` the raw string item itself. -/
theorem expirations_bulk_correct (now : Nat) (items : List Json)
    (h : ∀ j ∈ items, j.isStr = true) :
    termLines (expirationsBulkCore now items) = items.flatMap (fun j =>
      [registrationsAction,
       stringify (Json.obj
         [("time", .num (now : Int)), ("endpoint", j), ("value", .num 0)])]) ∧
    (termLines (expirationsBulkCore now items)).length = 2 * items.length := by
  have main : termLines (expirationsBulkCore now items) = items.flatMap (fun j =>
      [registrationsAction,
       stringify (Json.obj
         [("time", .num (now : Int)), ("endpoint", j), ("value", .num 0)])]) := by
    induction items with
    | nil => rfl
    | cons j rest ih =>
      have hj := h j (List.mem_cons_self _ _)
      have hdoc : noNl (stringify (Json.obj
          [("time", .num (now : Int)), ("endpoint", j), ("value", .num 0)])) = true := by
        refine stringify_flatObj_noNl _ ?_
        intro q hq
        simp only [List.mem_cons, List.not_mem_nil, or_false] at hq
        rcases hq with h1 | h1 | h1 <;> subst h1
        · rfl
        · exact Json.isStr_isScalar hj
        · rfl
      simp only [expirationsBulkCore, String.append_assoc]
      rw [termLines_line' _ _ registrationsAction_noNl, termLines_line' _ _ hdoc,
        ih (fun x hx => h x (List.mem_cons_of_mem _ hx)), List.flatMap_cons]
      rfl
  exact ⟨main, by rw [main, length_flatMap_pair]⟩

/-- Witness for C3 at a concrete two-element batch. -/
theorem expirations_bulk_correct_witness :
    (∀ j ∈ [Json.str "node1", Json.str "node2"], j.isStr = true) ∧
    (termLines (expirationsBulkCore 5 [Json.str "node1", Json.str "node2"]) =
      [Json.str "node1", Json.str "node2"].flatMap (fun j =>
        [registrationsAction,
         stringify (Json.obj
           [("time", .num ((5 : Nat) : Int)), ("endpoint", j),
            ("value", .num 0)])]) ∧
      (termLines (expirationsBulkCore 5 [Json.str "node1", Json.str "node2"])).length =
        2 * [Json.str "node1", Json.str "node2"].length) :=
  ⟨by decide, expirations_bulk_correct 5 _ (by decide)⟩

/-! ### Parsed bodies are never the undefined value -/

theorem parseValue_not_undefined {fuel : Nat} {cs : List Char} {v : Json}
    {rest : List Char} (h : parseValue fuel cs = some (v, rest)) :
    v.isUndefined = false := by
  match fuel with
  | 0 => simp [parseValue] at h
  | fuel + 1 =>
    unfold parseValue at h
    repeat' split at h
    all_goals
      first
      | exact Option.noConfusion h
      | (injection h with h1
         injection h1 with h2 h3
         subst h2
         rfl)
      | (obtain ⟨p, hp, hv⟩ := Option.map_eq_some'.mp h
         injection hv with h2 h3
         subst h2
         rfl)

theorem jsonParse_not_undefined {s : String} {v : Json}
    (h : jsonParse s = .ok v) : v.isUndefined = false := by
  unfold jsonParse at h
  split at h
  case h_1 w rest heq =>
    split at h
    · injection h with h1
      subst h1
      exact parseValue_not_undefined heq
    · exact Except.noConfusion h
  case h_2 => exact Except.noConfusion h

/-- C4: the signed client resolves with status line, headers and optional
decoded body for every response, with no branch on the status code; the
senders' shared continuation maps every resolution to a `'success'`
completion; only the transport error callback rejects, and a rejection is
propagated as a failure through the completion signal.  (The hypothesis
admits every response whose accumulated body is empty or valid JSON — a
garbage body makes `JSON.parse` throw inside the `end` handler, which
leaves the promise pending for any status code alike.) -/
theorem client_ignores_status (r : RawResponse)
    (h : accumulate r.chunks = "" ∨ ∃ j, jsonParse (accumulate r.chunks) = .ok j) :
    (∃ b, promiseSettle (.respond r) =
        .resolved ⟨r.statusCode, r.statusMessage, r.headers, b⟩) ∧
    (∀ d, thenDone (.resolved d) = some ⟨none, some (.str "success")⟩) ∧
    (∀ e, promiseSettle (.transportError e) = .rejected e ∧
      thenDone (.rejected e) = some ⟨some e, none⟩) ∧
    (∀ now (xs : List Json),
      (sendExpirationsM now (.respond r) (Json.arr xs)).callback =
        some ⟨none, some (.str "success")⟩) := by
  have hres : ∃ b, promiseSettle (.respond r) =
      .resolved ⟨r.statusCode, r.statusMessage, r.headers, b⟩ := by
    rcases h with hemp | ⟨j, hj⟩
    · exact ⟨none, by simp [promiseSettle, hemp]⟩
    · by_cases hb : accumulate r.chunks = ""
      · exact ⟨none, by simp [promiseSettle, hb]⟩
      · exact ⟨some j, by simp [promiseSettle, hb, hj]⟩
  refine ⟨hres, fun d => rfl, fun e => ⟨rfl, rfl⟩, ?_⟩
  intro now xs
  obtain ⟨b, hb⟩ := hres
  simp [sendExpirationsM, iterate, sendTail, hb, thenDone]

/-- Witness for C4 at a 500 response carrying a bulk-errors body. -/
theorem client_ignores_status_witness :
    (accumulate ["\x7b\"errors\":true\x7d"] = "" ∨
      ∃ j, jsonParse (accumulate ["\x7b\"errors\":true\x7d"]) = .ok j) ∧
    ((∃ b, promiseSettle (.respond ⟨500, "Internal Server Error", [],
          ["\x7b\"errors\":true\x7d"]⟩) =
        .resolved ⟨500, "Internal Server Error", [], b⟩) ∧
    (∀ d, thenDone (.resolved d) = some ⟨none, some (.str "success")⟩) ∧
    (∀ e, promiseSettle (.transportError e) = .rejected e ∧
      thenDone (.rejected e) = some ⟨some e, none⟩) ∧
    (∀ now (xs : List Json),
      (sendExpirationsM now
          (.respond ⟨500, "Internal Server Error", [],
            ["\x7b\"errors\":true\x7d"]⟩) (Json.arr xs)).callback =
        some ⟨none, some (.str "success")⟩)) :=
  ⟨Or.inr ⟨Json.obj [("errors", Json.bool true)], rfl⟩,
   client_ignores_status ⟨500, "Internal Server Error", [],
      ["\x7b\"errors\":true\x7d"]⟩
     (Or.inr ⟨Json.obj [("errors", Json.bool true)], rfl⟩)⟩

/-- C5 as frozen is refuted when `notifications` is also present: the
chain checks `notifications` first, so a body with all three keys takes
the notifications branch, not the registrations branch. -/
theorem classification_priority_counterexample :
    classify (Json.obj
      [("notifications", Json.arr []), ("registrations", Json.arr []),
       ("reg-updates", Json.arr [])]) = Branch.notificationsB ∧
    Branch.notificationsB ≠ Branch.registrationsB ∧
    handlerWithBody 0 (.transportError "err") (Json.obj
      [("notifications", Json.arr []), ("registrations", Json.arr []),
       ("reg-updates", Json.arr [])]) =
      sendNotificationsM 0 (.transportError "err") (Json.arr []) :=
  ⟨rfl, fun h => Branch.noConfusion h, rfl⟩

/-- C5 (amended): for every parsed body lacking `notifications` but
containing both `registrations` and `reg-updates`, classification selects
the `registrations` branch and the handler passes `body.registrations`
(never `reg-updates`, never a merge) to `sendRegistrations`; branch
selection is a pure function of the presence of the four keys. -/
theorem classification_priority (now : Nat) (engine : EngineSettle) (body : Json)
    (hn : hasOwn body "notifications" = false)
    (h1 : hasOwn body "registrations" = true)
    (h2 : hasOwn body "reg-updates" = true) :
    classify body = .registrationsB ∧
    handlerWithBody now engine body =
      sendRegistrationsM now engine (getFieldD body "registrations") ∧
    (∀ b1 b2 : Json,
      hasOwn b1 "notifications" = hasOwn b2 "notifications" →
      hasOwn b1 "registrations" = hasOwn b2 "registrations" →
      hasOwn b1 "reg-updates" = hasOwn b2 "reg-updates" →
      hasOwn b1 "registrations-expired" = hasOwn b2 "registrations-expired" →
      classify b1 = classify b2) := by
  refine ⟨by simp [classify, hn, h1], ?_, ?_⟩
  · rcases body with _ | _ | b | n | s | xs | fs
    · simp [hasOwn] at h1
    · simp [hasOwn] at h1
    · simp [hasOwn] at h1
    · simp [hasOwn] at h1
    · simp [hasOwn] at h1
    · simp [hasOwn] at h1
    · simp [handlerWithBody, hn, h1]
  · intro b1 b2 e1 e2 e3 e4
    simp only [classify, e1, e2, e3, e4]

/-- Witness for C5 (amended) at a body holding both keys. -/
theorem classification_priority_witness :
    (hasOwn (Json.obj [("registrations", Json.arr []),
        ("reg-updates", Json.arr [Json.null])]) "notifications" = false) ∧
    (hasOwn (Json.obj [("registrations", Json.arr []),
        ("reg-updates", Json.arr [Json.null])]) "registrations" = true) ∧
    (hasOwn (Json.obj [("registrations", Json.arr []),
        ("reg-updates", Json.arr [Json.null])]) "reg-updates" = true) ∧
    (classify (Json.obj [("registrations", Json.arr []),
        ("reg-updates", Json.arr [Json.null])]) = .registrationsB ∧
    handlerWithBody 7 (.transportError "err") (Json.obj
        [("registrations", Json.arr []), ("reg-updates", Json.arr [Json.null])]) =
      sendRegistrationsM 7 (.transportError "err")
        (getFieldD (Json.obj [("registrations", Json.arr []),
          ("reg-updates", Json.arr [Json.null])]) "registrations") ∧
    (∀ b1 b2 : Json,
      hasOwn b1 "notifications" = hasOwn b2 "notifications" →
      hasOwn b1 "registrations" = hasOwn b2 "registrations" →
      hasOwn b1 "reg-updates" = hasOwn b2 "reg-updates" →
      hasOwn b1 "registrations-expired" = hasOwn b2 "registrations-expired" →
      classify b1 = classify b2)) :=
  ⟨rfl, rfl, rfl,
   classification_priority 7 (.transportError "err")
     (Json.obj [("registrations", Json.arr []),
       ("reg-updates", Json.arr [Json.null])]) rfl rfl rfl⟩

/-- C6 as frozen is refuted by the body text `"null"`: the parsed body is
`null`, which lacks all four recognized keys, yet the very first
`hasOwnProperty` probe throws a `TypeError`, so the completion signal is
never invoked (with success or otherwise) and the claimed acknowledgement
never happens. -/
theorem unknown_body_counterexample :
    jsonParse "null" = .ok Json.null ∧
    hasOwn Json.null "notifications" = false ∧
    hasOwn Json.null "registrations" = false ∧
    hasOwn Json.null "reg-updates" = false ∧
    hasOwn Json.null "registrations-expired" = false ∧
    handler 0 (.transportError "err") ⟨"PUT", some "null"⟩ =
      ⟨none, none, some "TypeError: Cannot read properties of null"⟩ :=
  ⟨rfl, rfl, rfl, rfl, rfl, rfl⟩

/-- C6 (amended): for every PUT event whose body parses to a non-null
value lacking all four recognized keys, the handler invokes the
completion signal with success (null error) and issues no outbound
request; a body parsing to `null` instead makes the key probe throw, and
no completion is signalled. -/
theorem unknown_body_acknowledged (now : Nat) (engine : EngineSettle)
    (ev : Event) (raw : String) (body : Json)
    (hm : ev.httpMethod = "PUT") (hb : ev.body = some raw)
    (hparse : jsonParse raw = .ok body) (hnull : body ≠ .null)
    (h1 : hasOwn body "notifications" = false)
    (h2 : hasOwn body "registrations" = false)
    (h3 : hasOwn body "reg-updates" = false)
    (h4 : hasOwn body "registrations-expired" = false) :
    handler now engine ev = ⟨none, some ⟨none, some (.str "success")⟩, none⟩ := by
  have hu := jsonParse_not_undefined hparse
  simp only [handler, hm, hb, hparse, if_pos]
  rcases body with _ | _ | b | n | s | xs | fs
  · exact absurd rfl hnull
  · simp [Json.isUndefined] at hu
  · simp [handlerWithBody, h1, h2, h3, h4]
  · simp [handlerWithBody, h1, h2, h3, h4]
  · simp [handlerWithBody, h1, h2, h3, h4]
  · simp [handlerWithBody, h1, h2, h3, h4]
  · simp [handlerWithBody, h1, h2, h3, h4]

/-- Witness for C6 (amended) at the PUT event with body text `{}`. -/
theorem unknown_body_acknowledged_witness :
    (Event.mk "PUT" (some "\x7b\x7d")).httpMethod = "PUT" ∧
    (Event.mk "PUT" (some "\x7b\x7d")).body = some "\x7b\x7d" ∧
    jsonParse "\x7b\x7d" = .ok (Json.obj []) ∧
    Json.obj [] ≠ Json.null ∧
    hasOwn (Json.obj []) "notifications" = false ∧
    hasOwn (Json.obj []) "registrations" = false ∧
    hasOwn (Json.obj []) "reg-updates" = false ∧
    hasOwn (Json.obj []) "registrations-expired" = false ∧
    handler 3 (.transportError "err") (Event.mk "PUT" (some "\x7b\x7d")) =
      ⟨none, some ⟨none, some (.str "success")⟩, none⟩ :=
  ⟨rfl, rfl, rfl, fun h => Json.noConfusion h, rfl, rfl, rfl, rfl,
   unknown_body_acknowledged 3 (.transportError "err")
     (Event.mk "PUT" (some "\x7b\x7d")) "\x7b\x7d" (Json.obj []) rfl rfl rfl
     (fun h => Json.noConfusion h) rfl rfl rfl rfl⟩

/-- C7: for every event whose method is not PUT, the handler immediately
signals a failure whose message names the offending method, builds no
bulk payload and issues no outbound call; the entrypoint maps such a
failure to status 400 with the message as the response body. -/
theorem unsupported_method (now : Nat) (engine : EngineSettle) (ev : Event)
    (h : ev.httpMethod ≠ "PUT") :
    handler now engine ev =
      ⟨none, some ⟨some ("Unsupported method \"" ++ ev.httpMethod ++ "\""), none⟩,
       none⟩ ∧
    doneResponse ⟨some ("Unsupported method \"" ++ ev.httpMethod ++ "\""), none⟩ =
      ⟨"400", some ("Unsupported method \"" ++ ev.httpMethod ++ "\""),
       "application/json"⟩ := by
  exact ⟨by simp [handler, h], rfl⟩

/-- Witness for C7 at a GET event. -/
theorem unsupported_method_witness :
    (Event.mk "GET" none).httpMethod ≠ "PUT" ∧
    (handler 0 (.transportError "err") (Event.mk "GET" none) =
      ⟨none, some ⟨some ("Unsupported method \"" ++ "GET" ++ "\""), none⟩,
       none⟩ ∧
    doneResponse ⟨some ("Unsupported method \"" ++ "GET" ++ "\""), none⟩ =
      ⟨"400", some ("Unsupported method \"" ++ "GET" ++ "\""),
       "application/json"⟩) :=
  ⟨by decide, unsupported_method 0 (.transportError "err")
    (Event.mk "GET" none) (by decide)⟩

/-- C9: for every PUT event without a `body` property, the handler falls
through both inner branches and returns with the completion callback
never invoked — no success, no failure, no outbound call. -/
theorem put_without_body_silent (now : Nat) (engine : EngineSettle)
    (ev : Event) (hm : ev.httpMethod = "PUT") (hb : ev.body = none) :
    handler now engine ev = ⟨none, none, none⟩ := by
  simp [handler, hm, hb]

/-- Witness for C9 at the bare PUT event. -/
theorem put_without_body_silent_witness :
    (Event.mk "PUT" none).httpMethod = "PUT" ∧
    (Event.mk "PUT" none).body = none ∧
    handler 0 (.transportError "err") (Event.mk "PUT" none) =
      ⟨none, none, none⟩ :=
  ⟨rfl, rfl, put_without_body_silent 0 (.transportError "err")
    (Event.mk "PUT" none) rfl rfl⟩

/-- C10: whenever the engine request resolves — with any resolved data
whatsoever — each of the three send functions discards the resolved value
and invokes the completion callback with `(null, 'success')`, and the
entrypoint turns that into HTTP 200 with body the JSON-serialized string
`"success"`. -/
theorem senders_discard_response (now : Nat) (engine : EngineSettle)
    (d : ResolvedData) (hsettle : promiseSettle engine = .resolved d)
    (itemsN itemsR itemsE : Json) (bn br : String)
    (hn : (do notificationsBulkCore now (← iterate itemsN) :
        Except String String) = .ok bn)
    (hr : (do registrationsBulkCore now (← iterate itemsR) :
        Except String String) = .ok br)
    (xs : List Json) (he : iterate itemsE = .ok xs) :
    (sendNotificationsM now engine itemsN).callback =
      some ⟨none, some (.str "success")⟩ ∧
    (sendRegistrationsM now engine itemsR).callback =
      some ⟨none, some (.str "success")⟩ ∧
    (sendExpirationsM now engine itemsE).callback =
      some ⟨none, some (.str "success")⟩ ∧
    doneResponse ⟨none, some (.str "success")⟩ =
      ⟨"200", some "\"success\"", "application/json"⟩ := by
  refine ⟨?_, ?_, ?_, rfl⟩
  · simp [sendNotificationsM, hn, sendTail, hsettle, thenDone]
  · simp [sendRegistrationsM, hr, sendTail, hsettle, thenDone]
  · simp [sendExpirationsM, he, sendTail, hsettle, thenDone]

/-- Witness for C10 at a resolved 200 response and empty batches. -/
theorem senders_discard_response_witness :
    promiseSettle (.respond ⟨200, "OK", [], []⟩) =
      .resolved ⟨200, "OK", [], none⟩ ∧
    (do notificationsBulkCore 2 (← iterate (Json.arr [])) :
        Except String String) = .ok "" ∧
    (do registrationsBulkCore 2 (← iterate (Json.arr [])) :
        Except String String) = .ok "" ∧
    iterate (Json.arr []) = .ok [] ∧
    ((sendNotificationsM 2 (.respond ⟨200, "OK", [], []⟩) (Json.arr [])).callback =
      some ⟨none, some (.str "success")⟩ ∧
    (sendRegistrationsM 2 (.respond ⟨200, "OK", [], []⟩) (Json.arr [])).callback =
      some ⟨none, some (.str "success")⟩ ∧
    (sendExpirationsM 2 (.respond ⟨200, "OK", [], []⟩) (Json.arr [])).callback =
      some ⟨none, some (.str "success")⟩ ∧
    doneResponse ⟨none, some (.str "success")⟩ =
      ⟨"200", some "\"success\"", "application/json"⟩) :=
  ⟨rfl, rfl, rfl, rfl,
   senders_discard_response 2 (.respond ⟨200, "OK", [], []⟩)
     ⟨200, "OK", [], none⟩ rfl (Json.arr []) (Json.arr []) (Json.arr [])
     "" "" rfl rfl [] rfl⟩

theorem scalar_of_undef_or_str {v : Json}
    (h : v.isUndefined = true ∨ v.isStr = true) : v.isScalar = true := by
  cases v <;> simp_all [Json.isUndefined, Json.isStr, Json.isScalar]

theorem resourcesField_isScalar (v : Json) :
    (resourcesField v).isScalar = true := by
  cases v <;> rfl

/-- C8 as frozen is refuted by a notification item lacking `payload`:
`Buffer.from(undefined, 'base64')` throws, the whole batch is aborted
before any request, and the completion callback is never invoked — the
builder does crash on this missing field. -/
theorem missing_field_crash_counterexample :
    sendNotificationsM 0 (.transportError "err")
      (Json.arr [Json.obj [("ep", Json.str "node1"),
        ("path", Json.str "/3/0/1")]]) =
      ⟨none, none,
       some "TypeError: first argument must be of type string or Buffer"⟩ ∧
    notificationsBulkCore 0
      [Json.obj [("ep", Json.str "node1"), ("path", Json.str "/3/0/1")]] =
      .error "TypeError: first argument must be of type string or Buffer" :=
  ⟨rfl, rfl⟩

/-- C8 (amended): a missing `ep` or `path` on a notification item, or any
missing field on a registration item, does not crash the batch — the
builder processes every item, the absent field propagates as `undefined`
and is dropped from the serialized document; only a notification item
whose `payload` is missing makes the base64 decode throw and abort the
whole batch.  The last conjunct shows the document of an item without
`ep`: its `endpoint` field is absent. -/
theorem missing_fields_tolerated :
    (∀ (now : Nat) (items : List Json),
      (∀ j ∈ items, notifItemLenient j = true) →
      ∃ bulk, notificationsBulkCore now items = .ok bulk ∧
        (termLines bulk).length = 2 * items.length) ∧
    (∀ (now : Nat) (items : List Json),
      (∀ j ∈ items, regItemLenient j = true) →
      ∃ bulk, registrationsBulkCore now items = .ok bulk ∧
        (termLines bulk).length = 4 * items.length) ∧
    notificationsBulkCore 0
      [Json.obj [("path", Json.str "/3/0/1"), ("payload", Json.str "SGVsbG8=")]] =
      .ok (notifAction ++ "\n" ++
        "\x7b\"time\":0,\"path\":\"/3/0/1\",\"value\":\"Hello\"\x7d" ++
        "\n" ++ "") := by
  refine ⟨?_, ?_, rfl⟩
  · intro now items
    induction items with
    | nil => exact fun _ => ⟨"", rfl, rfl⟩
    | cons j rest ih =>
      intro h
      obtain ⟨tail, htail, hlen⟩ := ih (fun x hx => h x (List.mem_cons_of_mem _ hx))
      have hj := h j (List.mem_cons_self _ _)
      simp only [notifItemLenient, Bool.and_eq_true, Bool.or_eq_true] at hj
      obtain ⟨⟨⟨hobj, hpl⟩, hep⟩, hpath⟩ := hj
      obtain ⟨pl, hplv⟩ : ∃ s, getFieldD j "payload" = .str s :=
        ⟨_, Json.isStr_asStr hpl⟩
      have hdoc : noNl (stringify (Json.obj
          [("time", .num (now : Int)), ("endpoint", getFieldD j "ep"),
           ("path", getFieldD j "path"),
           ("value", .str (base64ToAscii pl))])) = true := by
        refine stringify_flatObj_noNl _ ?_
        intro q hq
        simp only [List.mem_cons, List.not_mem_nil, or_false] at hq
        rcases hq with h1 | h1 | h1 | h1 <;> subst h1
        · rfl
        · exact scalar_of_undef_or_str hep
        · exact scalar_of_undef_or_str hpath
        · rfl
      refine ⟨notifAction ++ "\n" ++ stringify (Json.obj
          [("time", .num (now : Int)), ("endpoint", getFieldD j "ep"),
           ("path", getFieldD j "path"),
           ("value", .str (base64ToAscii pl))]) ++ "\n" ++ tail, ?_, ?_⟩
      · simp only [notificationsBulkCore, jsGet_eq_getFieldD hobj, exceptOkBind,
          hplv, bufferFromBase64Ascii, htail]
      · simp only [String.append_assoc]
        rw [termLines_line' _ _ notifAction_noNl, termLines_line' _ _ hdoc]
        simp only [List.length_cons, hlen]
        omega
  · intro now items
    induction items with
    | nil => exact fun _ => ⟨"", rfl, rfl⟩
    | cons j rest ih =>
      intro h
      obtain ⟨tail, htail, hlen⟩ := ih (fun x hx => h x (List.mem_cons_of_mem _ hx))
      have hj := h j (List.mem_cons_self _ _)
      simp only [regItemLenient, Bool.and_eq_true, Bool.or_eq_true] at hj
      obtain ⟨⟨⟨hobj, hep⟩, hoep⟩, hept⟩ := hj
      have hdoc1 : noNl (stringify (Json.obj
          [("time", .num (now : Int)), ("endpoint", getFieldD j "ep"),
           ("original-ep", getFieldD j "original-ep"),
           ("ept", getFieldD j "ept"),
           ("resources", resourcesField (getFieldD j "resources"))])) = true := by
        refine stringify_flatObj_noNl _ ?_
        intro q hq
        simp only [List.mem_cons, List.not_mem_nil, or_false] at hq
        rcases hq with h1 | h1 | h1 | h1 | h1 <;> subst h1
        · rfl
        · exact scalar_of_undef_or_str hep
        · exact scalar_of_undef_or_str hoep
        · exact scalar_of_undef_or_str hept
        · exact resourcesField_isScalar _
      have hdoc2 : noNl (stringify (Json.obj
          [("time", .num (now : Int)), ("endpoint", getFieldD j "ep"),
           ("value", .num 1)])) = true := by
        refine stringify_flatObj_noNl _ ?_
        intro q hq
        simp only [List.mem_cons, List.not_mem_nil, or_false] at hq
        rcases hq with h1 | h1 | h1 <;> subst h1
        · rfl
        · exact scalar_of_undef_or_str hep
        · rfl
      refine ⟨devicesAction ++ "\n" ++ stringify (Json.obj
          [("time", .num (now : Int)), ("endpoint", getFieldD j "ep"),
           ("original-ep", getFieldD j "original-ep"),
           ("ept", getFieldD j "ept"),
           ("resources", resourcesField (getFieldD j "resources"))]) ++ "\n" ++
          registrationsAction ++ "\n" ++ stringify (Json.obj
          [("time", .num (now : Int)), ("endpoint", getFieldD j "ep"),
           ("value", .num 1)]) ++ "\n" ++ tail, ?_, ?_⟩
      · simp only [registrationsBulkCore, jsGet_eq_getFieldD hobj, exceptOkBind,
          htail]
      · simp only [String.append_assoc]
        rw [termLines_line' _ _ devicesAction_noNl, termLines_line' _ _ hdoc1,
          termLines_line' _ _ registrationsAction_noNl, termLines_line' _ _ hdoc2]
        simp only [List.length_cons, hlen]
        omega

/-- Witness for C8 (amended), exercising the notification part at an item
missing `ep` and `path`. -/
theorem missing_fields_tolerated_witness :
    (∀ j ∈ [Json.obj [("payload", Json.str "AA==")]],
      notifItemLenient j = true) ∧
    ∃ bulk, notificationsBulkCore 1 [Json.obj [("payload", Json.str "AA==")]] =
        .ok bulk ∧
      (termLines bulk).length =
        2 * [Json.obj [("payload", Json.str "AA==")]].length :=
  ⟨by decide,
   missing_fields_tolerated.1 1 [Json.obj [("payload", Json.str "AA==")]]
     (by decide)⟩
